import Mathlib

/-!
Shallow embedding of the angreal task orchestration layer of the `arawn`
repository (files `.angreal/task_build.py`, `task_check.py`, `task_docs.py`,
`task_test.py`).

Modelling conventions:
  * `subprocess.run(cmd, cwd=..., check=True)` is an `Invocation`; the outside
    world decides its outcome via `World.run : Invocation → Bool` (`true` =
    exit code 0).  `check=True` raises `CalledProcessError` on a non-zero
    exit, which aborts the remainder of the task body: `execPlan` models this
    first-failure abort.
  * `with Flox("."):` is a context manager: its enter/exit are the
    `Event.acquire` / `Event.release` trace events, release happening on both
    the normal and the exception path (`withFlox`).
  * `os.listdir` on a missing path or a non-directory raises; this is
    `Status.discoveryError`.  Python's `sorted` on strings is lexicographic
    on code points, embedded as insertion sort by `SLe`.
  * A task function that returns normally gives the process exit status 0;
    a propagated exception gives a non-zero exit status (`exitZero`).
  * Paths are kept relative to the working directory of the orchestrator:
    `os.path.join(os.getcwd(), "runtimes")` is `"runtimes"`, and the per
    runtime working directory is `"runtimes/" ++ entry` (`runtimePath`).
-/

/-- Lexicographic comparison of code-point lists, the order Python's
`sorted` uses on strings. -/
def charsLe : List Char → List Char → Bool
  | [], _ => true
  | _ :: _, [] => false
  | a :: as, b :: bs => if a < b then true else if b < a then false else charsLe as bs

/-- String comparison used by `sorted(os.listdir(...))`. -/
def strLe (a b : String) : Bool := charsLe a.data b.data

/-- `strLe` as a proposition, for use with `List.insertionSort`. -/
def SLe : String → String → Prop := fun a b => strLe a b = true

instance : DecidableRel SLe := fun a b => instDecidableEqBool (strLe a b) true

instance : IsTotal String SLe := by
  constructor
  intro a b
  show strLe a b = true ∨ strLe b a = true
  unfold strLe
  generalize a.data = x
  generalize b.data = y
  induction x generalizing y with
  | nil => left; rfl
  | cons c cs ih =>
    cases y with
    | nil => right; rfl
    | cons d ds =>
      rcases lt_trichotomy c d with h | h | h
      · left; simp [charsLe, h]
      · subst h
        rcases ih ds with h2 | h2
        · left; simp [charsLe, lt_irrefl, h2]
        · right; simp [charsLe, lt_irrefl, h2]
      · right; simp [charsLe, h]

instance : IsTrans String SLe := by
  constructor
  intro a b c
  show strLe a b = true → strLe b c = true → strLe a c = true
  unfold strLe
  generalize a.data = x
  generalize b.data = y
  generalize c.data = z
  induction x generalizing y z with
  | nil => intro _ _; rfl
  | cons p ps ih =>
    cases y with
    | nil => intro hab _; simp [charsLe] at hab
    | cons q qs =>
      cases z with
      | nil => intro _ hbc; simp [charsLe] at hbc
      | cons r rs =>
        intro hab hbc
        simp only [charsLe] at hab hbc ⊢
        rcases lt_trichotomy p q with h1 | h1 | h1
        · rcases lt_trichotomy q r with h2 | h2 | h2
          · simp [lt_trans h1 h2]
          · subst h2; simp [h1]
          · rw [if_neg (asymm h2), if_pos h2] at hbc; exact absurd hbc (by simp)
        · subst h1
          rcases lt_trichotomy p r with h2 | h2 | h2
          · simp [h2]
          · subst h2
            rw [if_neg (lt_irrefl p), if_neg (lt_irrefl p)] at hab hbc ⊢
            exact ih qs rs hab hbc
          · rw [if_neg (asymm h2), if_pos h2] at hbc; exact absurd hbc (by simp)
        · rw [if_neg (asymm h1), if_pos h1] at hab; exact absurd hab (by simp)

instance : IsAntisymm String SLe := by
  constructor
  have key : ∀ x y : List Char, charsLe x y = true → charsLe y x = true → x = y := by
    intro x
    induction x with
    | nil =>
      intro y hxy hyx
      cases y with
      | nil => rfl
      | cons d ds => simp [charsLe] at hyx
    | cons c cs ih =>
      intro y hxy hyx
      cases y with
      | nil => simp [charsLe] at hxy
      | cons d ds =>
        simp only [charsLe] at hxy hyx
        rcases lt_trichotomy c d with h1 | h1 | h1
        · rw [if_neg (asymm h1), if_pos h1] at hyx; exact absurd hyx (by simp)
        · subst h1
          rw [if_neg (lt_irrefl c), if_neg (lt_irrefl c)] at hxy hyx
          rw [ih ds hxy hyx]
        · rw [if_neg (asymm h1), if_pos h1] at hxy; exact absurd hxy (by simp)
  intro a b hab hba
  cases a with
  | mk da =>
    cases b with
    | mk db => exact congrArg String.mk (key da db hab hba)

/-- One fully resolved external tool call: argument vector plus working
directory (the executable name is the head of `args`, as in the Python
lists passed to `subprocess.run`). -/
structure Invocation where
  args : List String
  cwd : String
deriving DecidableEq, Repr

/-- Observable events of one task execution: Flox guard enter/exit,
`print` output, and the launch of an external process. -/
inductive Event where
  | acquire
  | release
  | print (msg : String)
  | invoke (inv : Invocation)
deriving DecidableEq, Repr

/-- Final status of a task function: normal return, a propagated
`CalledProcessError` from a failing invocation, or a propagated
`os.listdir` error on the runtimes directory. -/
inductive Status where
  | success
  | invocationFailure (inv : Invocation)
  | discoveryError
deriving DecidableEq, Repr

/-- Process exit status of the whole command: 0 exactly when the task
function returned normally. -/
def exitZero : Status → Bool
  | Status.success => true
  | Status.invocationFailure _ => false
  | Status.discoveryError => false

/-- The state of the outside world a task runs against: the runtimes
directory (existence, kind, listing, and per-entry facts), the docs
marker file, and the outcome of each external process. -/
structure World where
  runtimesDirExists : Bool
  runtimesDirIsDir : Bool
  runtimesEntries : List String
  isDir : String → Bool
  hasCargoToml : String → Bool
  docsBookToml : Bool
  run : Invocation → Bool

/-- `os.listdir("runtimes")` succeeds exactly when the path exists and is a
directory. -/
def runtimesListable (w : World) : Bool := w.runtimesDirExists && w.runtimesDirIsDir

/-- Sequential execution of a straight-line task body with
`check=True` semantics: prints pass through, each invocation runs in
order, and the first failing invocation aborts the rest.  Returns the
trace of events that actually happened and the resulting status. -/
def execPlan (run : Invocation → Bool) : List Event → List Event × Status
  | [] => ([], Status.success)
  | Event.invoke i :: rest =>
      if run i then
        (Event.invoke i :: (execPlan run rest).1, (execPlan run rest).2)
      else
        ([Event.invoke i], Status.invocationFailure i)
  | Event.acquire :: rest =>
      (Event.acquire :: (execPlan run rest).1, (execPlan run rest).2)
  | Event.release :: rest =>
      (Event.release :: (execPlan run rest).1, (execPlan run rest).2)
  | Event.print m :: rest =>
      (Event.print m :: (execPlan run rest).1, (execPlan run rest).2)

/-- `with Flox("."):` around a task body: the guard is acquired, the body
runs (possibly aborting at a failed invocation), and the guard is released
on every path; an exception from the body still propagates afterwards. -/
def withFlox (run : Invocation → Bool) (body : List Event) : List Event × Status :=
  (Event.acquire :: ((execPlan run body).1 ++ [Event.release]), (execPlan run body).2)

/-- The external invocations contained in a trace, in order. -/
def invocationsOf : List Event → List Invocation
  | [] => []
  | Event.invoke i :: rest => i :: invocationsOf rest
  | Event.acquire :: rest => invocationsOf rest
  | Event.release :: rest => invocationsOf rest
  | Event.print _ :: rest => invocationsOf rest

/-- Number of guard releases in a trace. -/
def countRelease : List Event → Nat
  | [] => 0
  | Event.release :: rest => countRelease rest + 1
  | Event.acquire :: rest => countRelease rest
  | Event.print _ :: rest => countRelease rest
  | Event.invoke _ :: rest => countRelease rest

/-- Number of guard acquisitions in a trace. -/
def countAcquire : List Event → Nat
  | [] => 0
  | Event.acquire :: rest => countAcquire rest + 1
  | Event.release :: rest => countAcquire rest
  | Event.print _ :: rest => countAcquire rest
  | Event.invoke _ :: rest => countAcquire rest

/-- Working directory used for runtime `entry`
(`os.path.join(runtimes_dir, entry)`). -/
def runtimePath (entry : String) : String := "runtimes/" ++ entry

/-- Runtime discovery as performed by the loop headers in
`build_runtimes` and `_run_runtimes`: sort the directory listing, keep the
entries that are directories containing `Cargo.toml` at their top level.
(The source tests the predicate inside the loop over the sorted listing,
which is the same sequence of surviving entries.) -/
def discover (entries : List String) ( isDir hasCargoToml : String → Bool) : List String :=
  (List.insertionSort SLe entries).filter (fun e => isDir e && hasCargoToml e)

/-- Invocation run by `_run_fmt(apply_fix)` in `task_check.py`. -/
def _run_fmt (apply_fix : Bool) : Invocation :=
  if apply_fix then ⟨["cargo", "fmt", "--all"], "."⟩
  else ⟨["cargo", "fmt", "--all", "--", "--check"], "."⟩

/-- Invocation run by `_run_clippy(apply_fix)` in `task_check.py`. -/
def _run_clippy (apply_fix : Bool) : Invocation :=
  ⟨(["cargo", "clippy", "--workspace"] ++
      (if apply_fix then ["--fix", "--allow-dirty"] else [])) ++ ["--", "-D", "warnings"],
   "."⟩

/-- Invocation run by `_run_unit()` in `task_test.py`. -/
def _run_unit : Invocation :=
  ⟨["cargo", "test", "--workspace", "--", "--test-threads=1"], "."⟩

/-- The `cargo check --workspace` invocation of `task_check.py`. -/
def cargoCheckInv : Invocation := ⟨["cargo", "check", "--workspace"], "."⟩

/-- Body of the per-runtime loop of `build_runtimes`: for each discovered
runtime, a progress marker then a cross-compiling build in that runtime's
directory, with `--release` appended exactly when the flag was given. -/
def build_runtimes_body (w : World) (release : Bool) : List Event :=
  (discover w.runtimesEntries w.isDir w.hasCargoToml).flatMap (fun entry =>
    [Event.print ("\n--- Building runtime: " ++ entry ++ " ---"),
     Event.invoke ⟨["cargo", "build", "--target", "wasm32-wasip1"] ++
       (if release then ["--release"] else []), runtimePath entry⟩])

/-- Body of the per-runtime loop of `_run_runtimes` in `task_test.py`. -/
def test_runtimes_body (w : World) : List Event :=
  (discover w.runtimesEntries w.isDir w.hasCargoToml).flatMap (fun entry =>
    [Event.print ("\n--- Testing runtime: " ++ entry ++ " ---"),
     Event.invoke ⟨["cargo", "test"], runtimePath entry⟩])

/-- `build workspace` (task_build.py, `build_workspace`). -/
def build_workspace (w : World) (release : Bool) : List Event × Status :=
  withFlox w.run
    [Event.invoke ⟨["cargo", "build", "--workspace"] ++
      (if release then ["--release"] else []), "."⟩]

/-- `build runtimes` (task_build.py, `build_runtimes`): the Flox guard is
entered first; `os.listdir` on a missing or non-directory runtimes path
raises inside the guard, so the guard is still released. -/
def build_runtimes (w : World) (release : Bool) : List Event × Status :=
  if runtimesListable w then
    withFlox w.run (build_runtimes_body w release)
  else
    ([Event.acquire, Event.release], Status.discoveryError)

/-- `check all` (task_check.py, `check_all`): fmt, clippy, then
`cargo check --workspace`, with `apply = not check_only`. -/
def check_all (w : World) (check_only : Bool) : List Event × Status :=
  withFlox w.run
    [Event.invoke (_run_fmt (!check_only)),
     Event.invoke (_run_clippy (!check_only)),
     Event.invoke cargoCheckInv]

/-- `check workspace` (task_check.py, `check_workspace`). -/
def check_workspace (w : World) : List Event × Status :=
  withFlox w.run [Event.invoke cargoCheckInv]

/-- `check fmt` (task_check.py, `check_fmt`). -/
def check_fmt (w : World) (check_only : Bool) : List Event × Status :=
  withFlox w.run [Event.invoke (_run_fmt (!check_only))]

/-- `check clippy` (task_check.py, `check_clippy`). -/
def check_clippy (w : World) (check_only : Bool) : List Event × Status :=
  withFlox w.run [Event.invoke (_run_clippy (!check_only))]

/-- `_run_runtimes()` of `task_test.py`, run inside an already-entered
guard: listdir failure is a discovery error before any per-runtime work. -/
def _run_runtimes (w : World) : List Event × Status :=
  if runtimesListable w then execPlan w.run (test_runtimes_body w)
  else ([], Status.discoveryError)

/-- `test all` (task_test.py, `test_all`): workspace unit tests, then the
per-runtime tests, inside one guard; a unit-test failure aborts before
`_run_runtimes` is ever reached. -/
def test_all (w : World) : List Event × Status :=
  let body :=
    if w.run _run_unit then
      (Event.invoke _run_unit :: (_run_runtimes w).1, (_run_runtimes w).2)
    else
      ([Event.invoke _run_unit], Status.invocationFailure _run_unit)
  (Event.acquire :: (body.1 ++ [Event.release]), body.2)

/-- `test unit` (task_test.py, `test_unit`). -/
def test_unit (w : World) : List Event × Status :=
  withFlox w.run [Event.invoke _run_unit]

/-- `test runtimes` (task_test.py, `test_runtimes`). -/
def test_runtimes (w : World) : List Event × Status :=
  (Event.acquire :: ((_run_runtimes w).1 ++ [Event.release]), (_run_runtimes w).2)

/-- `test integration` (task_test.py, `test_integration`). -/
def test_integration (w : World) : List Event × Status :=
  withFlox w.run
    [Event.invoke ⟨["cargo", "test", "--workspace", "--", "--ignored", "--test-threads=1"], "."⟩]

/-- `docs build` (task_docs.py, `docs_build`): the marker check happens
before the guard is entered; on a missing `docs/book.toml` the function
prints an error and returns normally. -/
def docs_build (w : World) : List Event × Status :=
  if !w.docsBookToml then
    ([Event.print "Error: docs/book.toml not found"], Status.success)
  else
    withFlox w.run
      [Event.invoke ⟨["mdbook", "build"], "docs"⟩,
       Event.print "\nDocumentation built to docs/book"]

/-- `docs serve` (task_docs.py, `docs_serve`), with the port already
resolved. -/
def docs_serve (w : World) (port : String) : List Event × Status :=
  if !w.docsBookToml then
    ([Event.print "Error: docs/book.toml not found"], Status.success)
  else
    withFlox w.run [Event.invoke ⟨["mdbook", "serve", "--port", port, "--open"], "docs"⟩]

/-- `docs serve` as invoked from the CLI: a missing `--port` flag resolves
to the declared default `"3000"` (the Python parameter default). -/
def docs_serve_cli (w : World) (portArg : Option String) : List Event × Status :=
  docs_serve w (portArg.getD "3000")

/-- The full CLI surface: every (group, subcommand) pair with its parsed
flags. -/
inductive Cmd where
  | buildWorkspace (release : Bool)
  | buildRuntimes (release : Bool)
  | checkAll (check_only : Bool)
  | checkWorkspace
  | checkFmt (check_only : Bool)
  | checkClippy (check_only : Bool)
  | testAll
  | testUnit
  | testRuntimes
  | testIntegration
  | docsBuild
  | docsServe (portArg : Option String)
deriving DecidableEq

/-- Dispatch: run one top-level command against a world. -/
def runCmd (w : World) : Cmd → List Event × Status
  | Cmd.buildWorkspace r => build_workspace w r
  | Cmd.buildRuntimes r => build_runtimes w r
  | Cmd.checkAll co => check_all w co
  | Cmd.checkWorkspace => check_workspace w
  | Cmd.checkFmt co => check_fmt w co
  | Cmd.checkClippy co => check_clippy w co
  | Cmd.testAll => test_all w
  | Cmd.testUnit => test_unit w
  | Cmd.testRuntimes => test_runtimes w
  | Cmd.testIntegration => test_integration w
  | Cmd.docsBuild => docs_build w
  | Cmd.docsServe p => docs_serve_cli w p

/-- Commands whose body never enters the Flox guard: the docs commands
short-circuit on a missing `docs/book.toml` before `with Flox`. -/
def guardSkipped (w : World) : Cmd → Bool
  | Cmd.docsBuild => !w.docsBookToml
  | Cmd.docsServe _ => !w.docsBookToml
  | _ => false

/-- Concrete world mirroring the spec's example tree: listing
`["gamma", "beta", "alpha"]`, every entry a directory, manifests in
`alpha` and `gamma` only; docs marker present; every external invocation
succeeds. -/
def wSpec : World where
  runtimesDirExists := true
  runtimesDirIsDir := true
  runtimesEntries := ["gamma", "beta", "alpha"]
  isDir := fun _ => true
  hasCargoToml := fun e => e == "alpha" || e == "gamma"
  docsBookToml := true
  run := fun _ => true

/-- Concrete world with `docs/book.toml` absent. -/
def wNoBook : World where
  runtimesDirExists := true
  runtimesDirIsDir := true
  runtimesEntries := []
  isDir := fun _ => true
  hasCargoToml := fun _ => true
  docsBookToml := false
  run := fun _ => true

/-- Concrete world whose runtimes directory does not exist. -/
def wNoDir : World where
  runtimesDirExists := false
  runtimesDirIsDir := false
  runtimesEntries := []
  isDir := fun _ => false
  hasCargoToml := fun _ => false
  docsBookToml := true
  run := fun _ => true

/-- Concrete world whose runtimes directory exists but holds no entry
that is a directory with a top-level Cargo.toml. -/
def wNoQualifying : World where
  runtimesDirExists := true
  runtimesDirIsDir := true
  runtimesEntries := ["README.md", "sub"]
  isDir := fun e => e == "sub"
  hasCargoToml := fun _ => false
  docsBookToml := true
  run := fun _ => true

/-- Concrete world in which exactly the check-only fmt invocation fails. -/
def wFmtFails : World where
  runtimesDirExists := true
  runtimesDirIsDir := true
  runtimesEntries := []
  isDir := fun _ => true
  hasCargoToml := fun _ => true
  docsBookToml := true
  run := fun i => !(i == _run_fmt false)

/-- Concrete world in which exactly the check-only clippy invocation
fails. -/
def wClippyFails : World where
  runtimesDirExists := true
  runtimesDirIsDir := true
  runtimesEntries := []
  isDir := fun _ => true
  hasCargoToml := fun _ => true
  docsBookToml := true
  run := fun i => !(i == _run_clippy false)

/-! Helper lemmas about traces and the sequential runner. -/

theorem invocationsOf_append (t₁ t₂ : List Event) :
    invocationsOf (t₁ ++ t₂) = invocationsOf t₁ ++ invocationsOf t₂ := by
  induction t₁ with
  | nil => rfl
  | cons e rest ih => cases e <;> simp [invocationsOf, ih]

theorem countRelease_append (t₁ t₂ : List Event) :
    countRelease (t₁ ++ t₂) = countRelease t₁ + countRelease t₂ := by
  induction t₁ with
  | nil => simp [countRelease]
  | cons e rest ih => cases e <;> simp [countRelease, ih, Nat.add_right_comm]

theorem countAcquire_append (t₁ t₂ : List Event) :
    countAcquire (t₁ ++ t₂) = countAcquire t₁ + countAcquire t₂ := by
  induction t₁ with
  | nil => simp [countAcquire]
  | cons e rest ih => cases e <;> simp [countAcquire, ih, Nat.add_right_comm]

theorem execPlan_all_true {run : Invocation → Bool} {plan : List Event}
    (h : ∀ i ∈ invocationsOf plan, run i = true) :
    execPlan run plan = (plan, Status.success) := by
  induction plan with
  | nil => rfl
  | cons e rest ih =>
    cases e with
    | acquire => simp [execPlan, ih h]
    | release => simp [execPlan, ih h]
    | print m => simp [execPlan, ih h]
    | invoke i =>
      have hi : run i = true := h i (by simp [invocationsOf])
      have hrest : ∀ j ∈ invocationsOf rest, run j = true := fun j hj =>
        h j (by simp [invocationsOf, hj])
      simp [execPlan, hi, ih hrest]

theorem execPlan_cases (run : Invocation → Bool) (plan : List Event) :
    ((execPlan run plan).2 = Status.success ∧
       ∀ i ∈ invocationsOf (execPlan run plan).1, run i = true) ∨
    (∃ pre f, (execPlan run plan).2 = Status.invocationFailure f ∧
       invocationsOf (execPlan run plan).1 = pre ++ [f] ∧
       (∀ i ∈ pre, run i = true) ∧ run f = false) := by
  induction plan with
  | nil => left; exact ⟨rfl, by simp [execPlan, invocationsOf]⟩
  | cons e rest ih =>
    cases e with
    | acquire => simpa [execPlan, invocationsOf] using ih
    | release => simpa [execPlan, invocationsOf] using ih
    | print m => simpa [execPlan, invocationsOf] using ih
    | invoke i =>
      by_cases hi : run i = true
      · rcases ih with ⟨h1, h2⟩ | ⟨pre, f, h1, h2, h3, h4⟩
        · left
          refine ⟨by simp [execPlan, hi, h1], ?_⟩
          simp only [execPlan, hi, if_pos, invocationsOf]
          intro j hj
          rcases List.mem_cons.mp hj with rfl | hj
          · exact hi
          · exact h2 j hj
        · right
          refine ⟨i :: pre, f, by simp [execPlan, hi, h1], ?_, ?_, h4⟩
          · simp [execPlan, hi, invocationsOf, h2]
          · intro j hj
            rcases List.mem_cons.mp hj with rfl | hj
            · exact hi
            · exact h3 j hj
      · right
        have hi' : run i = false := by
          cases h : run i
          · rfl
          · exact absurd h hi
        exact ⟨[], i, by simp [execPlan, hi'],
          by simp [execPlan, hi', invocationsOf], by simp, hi'⟩

theorem withFlox_fst_invocations (run : Invocation → Bool) (body : List Event) :
    invocationsOf (withFlox run body).1 = invocationsOf (execPlan run body).1 := by
  simp [withFlox, invocationsOf, invocationsOf_append]

theorem withFlox_snd (run : Invocation → Bool) (body : List Event) :
    (withFlox run body).2 = (execPlan run body).2 := rfl

theorem withFlox_shortCircuit (run : Invocation → Bool) (body : List Event) :
    ((∀ i ∈ invocationsOf (withFlox run body).1, run i = true) →
       exitZero (withFlox run body).2 = true) ∧
    ((∃ i, i ∈ invocationsOf (withFlox run body).1 ∧ run i = false) →
       exitZero (withFlox run body).2 = false ∧
       ∃ pre f, invocationsOf (withFlox run body).1 = pre ++ [f] ∧
         (∀ i ∈ pre, run i = true) ∧ run f = false) := by
  rw [withFlox_fst_invocations, withFlox_snd]
  rcases execPlan_cases run body with ⟨h1, h2⟩ | ⟨pre, f, h1, h2, h3, h4⟩
  · refine ⟨fun _ => by simp [h1, exitZero], ?_⟩
    rintro ⟨i, hi, hfalse⟩
    exact absurd (h2 i hi) (by simp [hfalse])
  · refine ⟨fun hall => absurd (hall f (by simp [h2])) (by simp [h4]), ?_⟩
    intro _
    exact ⟨by simp [h1, exitZero], pre, f, h2, h3, h4⟩

theorem build_runtimes_eq (w : World) (release : Bool)
    (h : runtimesListable w = true) :
    build_runtimes w release = withFlox w.run (build_runtimes_body w release) := by
  simp [build_runtimes, h]

theorem test_runtimes_eq (w : World) (h : runtimesListable w = true) :
    test_runtimes w = withFlox w.run (test_runtimes_body w) := by
  simp [test_runtimes, _run_runtimes, withFlox, h]

theorem test_all_eq (w : World) (h : runtimesListable w = true) :
    test_all w = withFlox w.run (Event.invoke _run_unit :: test_runtimes_body w) := by
  unfold test_all _run_runtimes withFlox
  cases hr : w.run _run_unit <;> simp [execPlan, h, hr]

theorem countRelease_execPlan (run : Invocation → Bool) (plan : List Event)
    (h : countRelease plan = 0) : countRelease (execPlan run plan).1 = 0 := by
  induction plan with
  | nil => rfl
  | cons e rest ih =>
    cases e with
    | acquire => simpa [execPlan, countRelease] using ih (by simpa [countRelease] using h)
    | release => simp [countRelease] at h
    | print m => simpa [execPlan, countRelease] using ih (by simpa [countRelease] using h)
    | invoke i =>
      by_cases hi : run i = true
      · simpa [execPlan, hi, countRelease] using ih (by simpa [countRelease] using h)
      · simp [execPlan, hi, countRelease]

theorem countAcquire_execPlan (run : Invocation → Bool) (plan : List Event)
    (h : countAcquire plan = 0) : countAcquire (execPlan run plan).1 = 0 := by
  induction plan with
  | nil => rfl
  | cons e rest ih =>
    cases e with
    | acquire => simp [countAcquire] at h
    | release => simpa [execPlan, countAcquire] using ih (by simpa [countAcquire] using h)
    | print m => simpa [execPlan, countAcquire] using ih (by simpa [countAcquire] using h)
    | invoke i =>
      by_cases hi : run i = true
      · simpa [execPlan, hi, countAcquire] using ih (by simpa [countAcquire] using h)
      · simp [execPlan, hi, countAcquire]

theorem countRelease_flatMap {α : Type} (l : List α) (f : α → List Event)
    (h : ∀ a, countRelease (f a) = 0) : countRelease (l.flatMap f) = 0 := by
  induction l with
  | nil => rfl
  | cons x xs ih => rw [List.flatMap_cons, countRelease_append, h, ih]

theorem countAcquire_flatMap {α : Type} (l : List α) (f : α → List Event)
    (h : ∀ a, countAcquire (f a) = 0) : countAcquire (l.flatMap f) = 0 := by
  induction l with
  | nil => rfl
  | cons x xs ih => rw [List.flatMap_cons, countAcquire_append, h, ih]

theorem guard_counts_withFlox (run : Invocation → Bool) (body : List Event)
    (hr : countRelease body = 0) (ha : countAcquire body = 0) :
    countRelease (withFlox run body).1 = 1 ∧ countAcquire (withFlox run body).1 = 1 := by
  constructor
  · simp [withFlox, countRelease, countRelease_append,
      countRelease_execPlan run body hr]
  · simp [withFlox, countAcquire, countAcquire_append,
      countAcquire_execPlan run body ha]

theorem invocationsOf_flatMap_pair {α : Type} (l : List α) (msg : α → String)
    (inv : α → Invocation) :
    invocationsOf (l.flatMap (fun a => [Event.print (msg a), Event.invoke (inv a)])) =
      l.map inv := by
  induction l with
  | nil => rfl
  | cons x xs ih =>
    rw [List.flatMap_cons, invocationsOf_append, ih]
    simp [invocationsOf]

/-! Claim theorems. -/

/-- C6: the check-only flag is the sole input of the shared argument
builders `_run_fmt` and `_run_clippy` (check-only mode passes
`apply_fix = false`): in check-only mode the fmt invocation appends
exactly the verify arguments `--` `--check` to the apply-mode vector, the
clippy invocation omits exactly the auto-fix arguments `--fix`
`--allow-dirty`, and every other argument and the working directory are
identical between the two modes. -/
theorem check_only_flag_argument_vectors :
    (_run_fmt false).args = (_run_fmt true).args ++ ["--", "--check"] ∧
    (_run_fmt false).cwd = (_run_fmt true).cwd ∧
    (_run_clippy true).args =
      (["cargo", "clippy", "--workspace"] ++ ["--fix", "--allow-dirty"]) ++
        ["--", "-D", "warnings"] ∧
    (_run_clippy false).args =
      ["cargo", "clippy", "--workspace"] ++ ["--", "-D", "warnings"] ∧
    (_run_clippy false).cwd = (_run_clippy true).cwd :=
  ⟨rfl, rfl, rfl, rfl, rfl⟩

/-- C2 counterexample: with `docs/book.toml` absent, `docs build`
launches no doc tool and prints the error message, but the task function
returns normally, so the command's exit status is 0 — not non-zero as
the claim states. -/
theorem docs_build_missing_marker_exit_is_zero :
    invocationsOf (docs_build wNoBook).1 = [] ∧
    (docs_build wNoBook).1 = [Event.print "Error: docs/book.toml not found"] ∧
    exitZero (docs_build wNoBook).2 = true := by
  decide

/-- C2 amended: when `docs/book.toml` is absent, `docs build` launches no
external doc tool and reports the precondition error message, and the
command returns normally with exit status 0 (the early return raises no
error). -/
theorem docs_build_missing_marker_behavior (w : World)
    (h : w.docsBookToml = false) :
    invocationsOf (docs_build w).1 = [] ∧
    (docs_build w).1 = [Event.print "Error: docs/book.toml not found"] ∧
    (docs_build w).2 = Status.success ∧
    exitZero (docs_build w).2 = true := by
  simp [docs_build, h, invocationsOf, exitZero]

/-- C2 amended, witness at a concrete world. -/
theorem docs_build_missing_marker_behavior_witness :
    invocationsOf (docs_build wNoBook).1 = [] ∧
    (docs_build wNoBook).1 = [Event.print "Error: docs/book.toml not found"] ∧
    (docs_build wNoBook).2 = Status.success ∧
    exitZero (docs_build wNoBook).2 = true :=
  docs_build_missing_marker_behavior wNoBook rfl

/-- C9: when `docs/book.toml` exists, `docs serve` performs exactly one
invocation — mdbook in serve mode in the docs directory — whether that
invocation then succeeds or fails, with the port taken from the `--port`
flag; an absent flag resolves to the declared default `"3000"`. -/
theorem docs_serve_single_invocation (w : World) (portArg : Option String)
    (hbook : w.docsBookToml = true) :
    invocationsOf (docs_serve_cli w portArg).1 =
      [⟨["mdbook", "serve", "--port", portArg.getD "3000", "--open"], "docs"⟩] ∧
    (portArg = none →
      invocationsOf (docs_serve_cli w portArg).1 =
        [⟨["mdbook", "serve", "--port", "3000", "--open"], "docs"⟩]) := by
  have key : invocationsOf (docs_serve_cli w portArg).1 =
      [⟨["mdbook", "serve", "--port", portArg.getD "3000", "--open"], "docs"⟩] := by
    unfold docs_serve_cli docs_serve
    rw [if_neg (by simp [hbook])]
    rw [withFlox_fst_invocations]
    cases hr : w.run ⟨["mdbook", "serve", "--port", portArg.getD "3000", "--open"], "docs"⟩ <;>
      simp [execPlan, hr, invocationsOf]
  refine ⟨key, fun hnone => ?_⟩
  rw [key, hnone]
  rfl

/-- C9 witness: concrete world with the marker present and no `--port`
flag supplied. -/
theorem docs_serve_single_invocation_witness :
    invocationsOf (docs_serve_cli wSpec none).1 =
      [⟨["mdbook", "serve", "--port", "3000", "--open"], "docs"⟩] :=
  (docs_serve_single_invocation wSpec none rfl).2 rfl

/-- C10: when the runtimes directory exists but no entry qualifies
(is a directory with a top-level Cargo.toml) — including the empty
directory — `build runtimes` and `test runtimes` launch no external
process at all and exit with status 0. -/
theorem no_qualifying_runtimes_success (w : World) (release : Bool)
    (hdir : runtimesListable w = true)
    (hnone : ∀ e ∈ w.runtimesEntries, (w.isDir e && w.hasCargoToml e) = false) :
    (build_runtimes w release).1 = [Event.acquire, Event.release] ∧
    invocationsOf (build_runtimes w release).1 = [] ∧
    (build_runtimes w release).2 = Status.success ∧
    exitZero (build_runtimes w release).2 = true ∧
    (test_runtimes w).1 = [Event.acquire, Event.release] ∧
    invocationsOf (test_runtimes w).1 = [] ∧
    (test_runtimes w).2 = Status.success ∧
    exitZero (test_runtimes w).2 = true := by
  have hdisc : discover w.runtimesEntries w.isDir w.hasCargoToml = [] := by
    unfold discover
    rw [List.filter_eq_nil_iff]
    intro a ha
    have : a ∈ w.runtimesEntries := (List.perm_insertionSort SLe _).mem_iff.mp ha
    simp [hnone a this]
  have hb : build_runtimes_body w release = [] := by
    unfold build_runtimes_body
    rw [hdisc]
    rfl
  have ht : test_runtimes_body w = [] := by
    unfold test_runtimes_body
    rw [hdisc]
    rfl
  rw [build_runtimes_eq w release hdir, test_runtimes_eq w hdir, hb, ht]
  refine ⟨rfl, rfl, rfl, rfl, rfl, rfl, rfl, rfl⟩

/-- C10 witness: a listing with a manifest-less directory and a plain
file. -/
theorem no_qualifying_runtimes_success_witness :
    (build_runtimes wNoQualifying false).1 = [Event.acquire, Event.release] ∧
    invocationsOf (build_runtimes wNoQualifying false).1 = [] ∧
    (build_runtimes wNoQualifying false).2 = Status.success ∧
    exitZero (build_runtimes wNoQualifying false).2 = true ∧
    (test_runtimes wNoQualifying).1 = [Event.acquire, Event.release] ∧
    invocationsOf (test_runtimes wNoQualifying).1 = [] ∧
    (test_runtimes wNoQualifying).2 = Status.success ∧
    exitZero (test_runtimes wNoQualifying).2 = true :=
  no_qualifying_runtimes_success wNoQualifying false rfl (by decide)

/-- C4: runtime discovery returns exactly the listed entries that are
directories containing Cargo.toml at their top level — excluding
non-directory entries and directories lacking the marker — in
lexicographically sorted order; relisting the unchanged tree (any
reordering the OS may return of the same entries) discovers the
identical ordered list. -/
theorem discover_exact_sorted_deterministic (w : World) (relisting : List String)
    (hperm : relisting.Perm w.runtimesEntries) :
    (∀ e, e ∈ discover w.runtimesEntries w.isDir w.hasCargoToml ↔
      (e ∈ w.runtimesEntries ∧ w.isDir e = true ∧ w.hasCargoToml e = true)) ∧
    List.Sorted SLe (discover w.runtimesEntries w.isDir w.hasCargoToml) ∧
    discover relisting w.isDir w.hasCargoToml =
      discover w.runtimesEntries w.isDir w.hasCargoToml := by
  refine ⟨?_, ?_, ?_⟩
  · intro e
    unfold discover
    rw [List.mem_filter, (List.perm_insertionSort SLe _).mem_iff]
    simp [and_assoc]
  · exact List.Pairwise.filter _ (List.sorted_insertionSort SLe _)
  · unfold discover
    congr 1
    exact List.eq_of_perm_of_sorted
      ((List.perm_insertionSort SLe relisting).trans
        (hperm.trans (List.perm_insertionSort SLe w.runtimesEntries).symm))
      (List.sorted_insertionSort SLe relisting)
      (List.sorted_insertionSort SLe w.runtimesEntries)

/-- C4 witness: the spec's example tree (`alpha` and `gamma` carry the
manifest, `beta` does not) discovered from two different listing orders
gives the same result, `["alpha", "gamma"]`. -/
theorem discover_exact_sorted_deterministic_witness :
    discover ["alpha", "beta", "gamma"] wSpec.isDir wSpec.hasCargoToml =
      discover wSpec.runtimesEntries wSpec.isDir wSpec.hasCargoToml ∧
    discover wSpec.runtimesEntries wSpec.isDir wSpec.hasCargoToml = ["alpha", "gamma"] :=
  ⟨(discover_exact_sorted_deterministic wSpec ["alpha", "beta", "gamma"] (by decide)).2.2,
   by decide⟩

/-- C7: if the runtimes directory does not exist or is not a directory,
`build runtimes` and `test runtimes` fail with the discovery error and
attempt no invocation at all; `test all` exits non-zero, attempts at most
the (non-per-target) workspace unit-test invocation, and surfaces the
discovery error whenever the unit-test invocation itself succeeded.  In
every case the failure is surfaced rather than treated as an empty
target list. -/
theorem discovery_error_aborts_commands (w : World) (release : Bool)
    (h : w.runtimesDirExists = false ∨ w.runtimesDirIsDir = false) :
    ((build_runtimes w release).2 = Status.discoveryError ∧
      invocationsOf (build_runtimes w release).1 = [] ∧
      exitZero (build_runtimes w release).2 = false) ∧
    ((test_runtimes w).2 = Status.discoveryError ∧
      invocationsOf (test_runtimes w).1 = [] ∧
      exitZero (test_runtimes w).2 = false) ∧
    (exitZero (test_all w).2 = false ∧
      (∀ i ∈ invocationsOf (test_all w).1, i = _run_unit) ∧
      (w.run _run_unit = true → (test_all w).2 = Status.discoveryError)) := by
  have hl : runtimesListable w = false := by
    rcases h with h | h <;> simp [runtimesListable, h]
  have hrr : _run_runtimes w = ([], Status.discoveryError) := by
    simp [_run_runtimes, hl]
  refine ⟨?_, ?_, ?_⟩
  · simp [build_runtimes, hl, invocationsOf, exitZero]
  · simp [test_runtimes, hrr, invocationsOf, invocationsOf_append, exitZero]
  · cases hu : w.run _run_unit <;>
      simp [test_all, hu, hrr, invocationsOf, invocationsOf_append, exitZero]

/-- C7 witness: a world with no runtimes directory at all. -/
theorem discovery_error_aborts_commands_witness :
    (build_runtimes wNoDir true).2 = Status.discoveryError ∧
    invocationsOf (build_runtimes wNoDir true).1 = [] ∧
    (test_runtimes wNoDir).2 = Status.discoveryError ∧
    exitZero (test_all wNoDir).2 = false ∧
    (test_all wNoDir).2 = Status.discoveryError :=
  ⟨(discovery_error_aborts_commands wNoDir true (Or.inl rfl)).1.1,
   (discovery_error_aborts_commands wNoDir true (Or.inl rfl)).1.2.1,
   (discovery_error_aborts_commands wNoDir true (Or.inl rfl)).2.1.1,
   (discovery_error_aborts_commands wNoDir true (Or.inl rfl)).2.2.1,
   (discovery_error_aborts_commands wNoDir true (Or.inl rfl)).2.2.2.2 rfl⟩

/-- C5: `check all` executes exactly the fixed sequence fmt, clippy,
workspace-wide check in that order, each stage gated on the previous one
succeeding: if fmt fails only fmt was attempted, if clippy fails only fmt
and clippy were attempted, and only when all three run does the command
succeed (exactly when the final check does). -/
theorem check_all_fixed_gated_sequence (w : World) (check_only : Bool) :
    (w.run (_run_fmt (!check_only)) = false →
      invocationsOf (check_all w check_only).1 = [_run_fmt (!check_only)] ∧
      exitZero (check_all w check_only).2 = false) ∧
    (w.run (_run_fmt (!check_only)) = true →
      w.run (_run_clippy (!check_only)) = false →
      invocationsOf (check_all w check_only).1 =
        [_run_fmt (!check_only), _run_clippy (!check_only)] ∧
      exitZero (check_all w check_only).2 = false) ∧
    (w.run (_run_fmt (!check_only)) = true →
      w.run (_run_clippy (!check_only)) = true →
      invocationsOf (check_all w check_only).1 =
        [_run_fmt (!check_only), _run_clippy (!check_only), cargoCheckInv] ∧
      (check_all w check_only).2 =
        (if w.run cargoCheckInv = true then Status.success
         else Status.invocationFailure cargoCheckInv)) := by
  refine ⟨fun h1 => ?_, fun h1 h2 => ?_, fun h1 h2 => ?_⟩
  · simp [check_all, withFlox, execPlan, h1, invocationsOf, invocationsOf_append, exitZero]
  · simp [check_all, withFlox, execPlan, h1, h2, invocationsOf, invocationsOf_append, exitZero]
  · cases h3 : w.run cargoCheckInv <;>
      simp [check_all, withFlox, execPlan, h1, h2, h3, invocationsOf,
        invocationsOf_append, exitZero]

/-- C5 witness: a world in which the check-only fmt invocation fails —
clippy and the workspace check are never attempted and the command exits
non-zero. -/
theorem check_all_fixed_gated_sequence_witness :
    invocationsOf (check_all wFmtFails true).1 = [_run_fmt false] ∧
    exitZero (check_all wFmtFails true).2 = false :=
  (check_all_fixed_gated_sequence wFmtFails true).1 (by decide)

/-- C3 counterexample: on the PreconditionError path of `docs build`
(missing `docs/book.toml`) the task returns before `with Flox` is
entered, so the guard's release is observed zero times — not exactly
once as the claim states. -/
theorem guard_release_zero_on_precondition_path :
    countRelease (runCmd wNoBook Cmd.docsBuild).1 = 0 ∧
    countAcquire (runCmd wNoBook Cmd.docsBuild).1 = 0 := by
  decide

/-- C3 amended: guard acquisitions and releases balance for every
top-level command; the release is observed exactly once on every path
where the guard is entered — success, InvocationFailure, and the
DiscoveryError path — but zero times on the docs PreconditionError path,
where the marker check returns before `with Flox` is entered. -/
theorem guard_release_exactly_once_unless_skipped (w : World) (c : Cmd) :
    countRelease (runCmd w c).1 = countAcquire (runCmd w c).1 ∧
    countRelease (runCmd w c).1 = (if guardSkipped w c then 0 else 1) := by
  have hR : countRelease (_run_runtimes w).1 = 0 := by
    unfold _run_runtimes
    split
    · exact countRelease_execPlan _ _
        (by unfold test_runtimes_body; exact countRelease_flatMap _ _ fun a => rfl)
    · rfl
  have hA : countAcquire (_run_runtimes w).1 = 0 := by
    unfold _run_runtimes
    split
    · exact countAcquire_execPlan _ _
        (by unfold test_runtimes_body; exact countAcquire_flatMap _ _ fun a => rfl)
    · rfl
  cases c with
  | buildWorkspace r =>
    constructor <;>
      simp [runCmd, build_workspace, withFlox, guardSkipped, countRelease, countAcquire,
        countRelease_append, countAcquire_append, countRelease_execPlan, countAcquire_execPlan]
  | buildRuntimes r =>
    cases hl : runtimesListable w with
    | true =>
      rw [show runCmd w (Cmd.buildRuntimes r) =
            withFlox w.run (build_runtimes_body w r) from build_runtimes_eq w r hl]
      have hbr : countRelease (execPlan w.run (build_runtimes_body w r)).1 = 0 :=
        countRelease_execPlan _ _
          (by unfold build_runtimes_body; exact countRelease_flatMap _ _ fun a => rfl)
      have hba : countAcquire (execPlan w.run (build_runtimes_body w r)).1 = 0 :=
        countAcquire_execPlan _ _
          (by unfold build_runtimes_body; exact countAcquire_flatMap _ _ fun a => rfl)
      constructor <;>
        simp [withFlox, guardSkipped, countRelease, countAcquire,
          countRelease_append, countAcquire_append, hbr, hba]
    | false =>
      constructor <;>
        simp [runCmd, build_runtimes, hl, guardSkipped, countRelease, countAcquire]
  | checkAll co =>
    constructor <;>
      simp [runCmd, check_all, withFlox, guardSkipped, countRelease, countAcquire,
        countRelease_append, countAcquire_append, countRelease_execPlan, countAcquire_execPlan]
  | checkWorkspace =>
    constructor <;>
      simp [runCmd, check_workspace, withFlox, guardSkipped, countRelease, countAcquire,
        countRelease_append, countAcquire_append, countRelease_execPlan, countAcquire_execPlan]
  | checkFmt co =>
    constructor <;>
      simp [runCmd, check_fmt, withFlox, guardSkipped, countRelease, countAcquire,
        countRelease_append, countAcquire_append, countRelease_execPlan, countAcquire_execPlan]
  | checkClippy co =>
    constructor <;>
      simp [runCmd, check_clippy, withFlox, guardSkipped, countRelease, countAcquire,
        countRelease_append, countAcquire_append, countRelease_execPlan, countAcquire_execPlan]
  | testAll =>
    cases hu : w.run _run_unit <;>
      constructor <;>
        simp [runCmd, test_all, hu, guardSkipped, countRelease, countAcquire,
          countRelease_append, countAcquire_append, hR, hA]
  | testUnit =>
    constructor <;>
      simp [runCmd, test_unit, withFlox, guardSkipped, countRelease, countAcquire,
        countRelease_append, countAcquire_append, countRelease_execPlan, countAcquire_execPlan]
  | testRuntimes =>
    constructor <;>
      simp [runCmd, test_runtimes, guardSkipped, countRelease, countAcquire,
        countRelease_append, countAcquire_append, hR, hA]
  | testIntegration =>
    constructor <;>
      simp [runCmd, test_integration, withFlox, guardSkipped, countRelease, countAcquire,
        countRelease_append, countAcquire_append, countRelease_execPlan, countAcquire_execPlan]
  | docsBuild =>
    cases hb : w.docsBookToml <;>
      constructor <;>
        simp [runCmd, docs_build, hb, withFlox, guardSkipped, countRelease, countAcquire,
          countRelease_append, countAcquire_append, countRelease_execPlan, countAcquire_execPlan]
  | docsServe p =>
    cases hb : w.docsBookToml <;>
      constructor <;>
        simp [runCmd, docs_serve_cli, docs_serve, hb, withFlox, guardSkipped, countRelease,
          countAcquire, countRelease_append, countAcquire_append, countRelease_execPlan,
          countAcquire_execPlan]

/-- C1: for every command (given a listable runtimes directory, so that
no command aborts for a non-invocation reason), if every attempted
external invocation succeeded the command's exit status is 0, and if any
attempted invocation failed the exit status is non-zero and the
invocations actually attempted are precisely those up to and including
the first failing one — no invocation after the first failure was
attempted, across hand-authored sequences and per-target iterations
alike. -/
theorem command_exit_short_circuit (w : World) (c : Cmd)
    (hdir : runtimesListable w = true) :
    ((∀ i ∈ invocationsOf (runCmd w c).1, w.run i = true) →
      exitZero (runCmd w c).2 = true) ∧
    ((∃ i, i ∈ invocationsOf (runCmd w c).1 ∧ w.run i = false) →
      exitZero (runCmd w c).2 = false ∧
      ∃ pre f, invocationsOf (runCmd w c).1 = pre ++ [f] ∧
        (∀ i ∈ pre, w.run i = true) ∧ w.run f = false) := by
  cases c with
  | buildWorkspace r => exact withFlox_shortCircuit w.run _
  | buildRuntimes r =>
    rw [show runCmd w (Cmd.buildRuntimes r) =
          withFlox w.run (build_runtimes_body w r) from build_runtimes_eq w r hdir]
    exact withFlox_shortCircuit w.run _
  | checkAll co => exact withFlox_shortCircuit w.run _
  | checkWorkspace => exact withFlox_shortCircuit w.run _
  | checkFmt co => exact withFlox_shortCircuit w.run _
  | checkClippy co => exact withFlox_shortCircuit w.run _
  | testAll =>
    rw [show runCmd w Cmd.testAll =
          withFlox w.run (Event.invoke _run_unit :: test_runtimes_body w) from
        test_all_eq w hdir]
    exact withFlox_shortCircuit w.run _
  | testUnit => exact withFlox_shortCircuit w.run _
  | testRuntimes =>
    rw [show runCmd w Cmd.testRuntimes =
          withFlox w.run (test_runtimes_body w) from test_runtimes_eq w hdir]
    exact withFlox_shortCircuit w.run _
  | testIntegration => exact withFlox_shortCircuit w.run _
  | docsBuild =>
    cases hb : w.docsBookToml with
    | false =>
      constructor
      · intro _
        simp [runCmd, docs_build, hb, exitZero]
      · rintro ⟨i, hi, _⟩
        simp [runCmd, docs_build, hb, invocationsOf] at hi
    | true =>
      rw [show runCmd w Cmd.docsBuild =
            withFlox w.run
              [Event.invoke ⟨["mdbook", "build"], "docs"⟩,
               Event.print "\nDocumentation built to docs/book"] from by
          simp [runCmd, docs_build, hb]]
      exact withFlox_shortCircuit w.run _
  | docsServe p =>
    cases hb : w.docsBookToml with
    | false =>
      constructor
      · intro _
        simp [runCmd, docs_serve_cli, docs_serve, hb, exitZero]
      · rintro ⟨i, hi, _⟩
        simp [runCmd, docs_serve_cli, docs_serve, hb, invocationsOf] at hi
    | true =>
      rw [show runCmd w (Cmd.docsServe p) =
            withFlox w.run
              [Event.invoke ⟨["mdbook", "serve", "--port", p.getD "3000", "--open"], "docs"⟩]
          from by simp [runCmd, docs_serve_cli, docs_serve, hb]]
      exact withFlox_shortCircuit w.run _

/-- C1 witness: under `check all --check-only` with fmt succeeding and
clippy failing, the command's exit status is non-zero. -/
theorem command_exit_short_circuit_witness :
    exitZero (runCmd wClippyFails (Cmd.checkAll true)).2 = false :=
  ((command_exit_short_circuit wClippyFails (Cmd.checkAll true) rfl).2
    ⟨_run_clippy false, by decide, by decide⟩).1

/-- C8: `build runtimes` composes discovery with per-target iteration:
when discovery succeeds and every external invocation succeeds, the
observed trace is, for each discovered target in discovery order, a
progress marker naming that target immediately followed by the
cross-compiling wasm32-wasip1 build invocation run with that target's
own directory as working directory, `--release` being appended to the
argument vector exactly when the release flag was given; the attempted
invocations are exactly one build per discovered target, in order. -/
theorem build_runtimes_composition (w : World) (release : Bool)
    (hdir : runtimesListable w = true)
    (hrun : ∀ i, w.run i = true) :
    (build_runtimes w release).1 =
      Event.acquire ::
        ((discover w.runtimesEntries w.isDir w.hasCargoToml).flatMap (fun entry =>
          [Event.print ("\n--- Building runtime: " ++ entry ++ " ---"),
           Event.invoke ⟨["cargo", "build", "--target", "wasm32-wasip1"] ++
             (if release then ["--release"] else []), runtimePath entry⟩]) ++
          [Event.release]) ∧
    invocationsOf (build_runtimes w release).1 =
      (discover w.runtimesEntries w.isDir w.hasCargoToml).map (fun entry =>
        ⟨["cargo", "build", "--target", "wasm32-wasip1"] ++
          (if release then ["--release"] else []), runtimePath entry⟩) ∧
    (build_runtimes w release).2 = Status.success := by
  have hall : execPlan w.run (build_runtimes_body w release) =
      (build_runtimes_body w release, Status.success) :=
    execPlan_all_true (fun i _ => hrun i)
  rw [build_runtimes_eq w release hdir]
  refine ⟨?_, ?_, by simp [withFlox, hall]⟩
  · simp only [withFlox, hall]
    rfl
  simp only [withFlox, hall, invocationsOf, invocationsOf_append]
  unfold build_runtimes_body
  rw [invocationsOf_flatMap_pair _
    (fun entry => "\n--- Building runtime: " ++ entry ++ " ---")
    (fun entry => ⟨["cargo", "build", "--target", "wasm32-wasip1"] ++
      (if release then ["--release"] else []), runtimePath entry⟩)]
  simp [invocationsOf]

/-- C8 witness: the spec's example tree built with `--release`: markers
and builds for `alpha` then `gamma`, each build run in its own directory
with `--release` appended. -/
theorem build_runtimes_composition_witness :
    (build_runtimes wSpec true).1 =
      [Event.acquire,
       Event.print "\n--- Building runtime: alpha ---",
       Event.invoke ⟨["cargo", "build", "--target", "wasm32-wasip1", "--release"],
         "runtimes/alpha"⟩,
       Event.print "\n--- Building runtime: gamma ---",
       Event.invoke ⟨["cargo", "build", "--target", "wasm32-wasip1", "--release"],
         "runtimes/gamma"⟩,
       Event.release] ∧
    (build_runtimes wSpec true).2 = Status.success := by
  have h := build_runtimes_composition wSpec true rfl (fun i => rfl)
  refine ⟨?_, h.2.2⟩
  rw [h.1]
  decide
